import Mathlib

/-!
Verification of the OBJ-file loader in `src/main.rs` (repository
`Lectura_obj`).  The program reads a Wavefront OBJ file line by line,
tokenises each line, dispatches on the leading keyword, and populates a
mesh (vertices, normals, texture coordinates, faces, and four name
lists); afterwards it prints a summary including an axis-aligned
bounding box.

Strings are modelled as lists of characters (`Str`), Rust `usize`
arithmetic as `Nat` with an explicit reduction modulo `2 ^ 64` where the
source can wrap (release-build semantics; debug builds panic on the same
overflow, which is noted at the relevant definition), and `f32` values
as an extended-rational type `F32` with IEEE-style special values.
-/

namespace ObjLoader

/-- Rust string slices are modelled as lists of characters. -/
abbrev Str := List Char

/-- The whitespace predicate used by Rust's `str::trim` and
`str::split_whitespace`.  ASCII whitespace is modelled exactly; the
exotic Unicode whitespace code points accepted by Rust are not
representable in the inputs we consider and are omitted. -/
def isWS (c : Char) : Bool :=
  c = ' ' ∨ c = '\t' ∨ c = '\n' ∨ c = '\r' ∨ c = '\x0b' ∨ c = '\x0c'

/-- Models Rust `str::trim`: drop whitespace from both ends. -/
def trim (s : Str) : Str :=
  ((s.dropWhile isWS).reverse.dropWhile isWS).reverse

/-- Accumulator pass of `split_whitespace`: `cur` is the reversed
current token. -/
def splitWSAux : Str → Str → List Str
  | [], [] => []
  | [], cur => [cur.reverse]
  | c :: rest, cur =>
    if isWS c then
      if cur = [] then splitWSAux rest []
      else cur.reverse :: splitWSAux rest []
    else splitWSAux rest (c :: cur)

/-- Models Rust `str::split_whitespace`: whitespace-separated tokens,
with no empty tokens produced. -/
def split_whitespace (s : Str) : List Str :=
  splitWSAux s []

/-- Accumulator pass of `splitOnChar`. -/
def splitOnCharAux (sep : Char) : Str → Str → List Str
  | [], cur => [cur.reverse]
  | c :: rest, cur =>
    if c = sep then cur.reverse :: splitOnCharAux sep rest []
    else splitOnCharAux sep rest (c :: cur)

/-- Models Rust `str::split(sep)` for a single-character separator:
`""` yields `[""]`, `"a//b"` yields `["a", "", "b"]`. -/
def splitOnChar (sep : Char) (s : Str) : List Str :=
  splitOnCharAux sep s []

/-- Shorthand turning a Lean string literal into the `Str` model. -/
def w (s : String) : Str := s.toList

/-- Numeric value of a string of decimal digits. -/
def natOfDigits (s : Str) : Nat :=
  s.foldl (fun acc c => acc * 10 + (c.toNat - 48)) 0

/-- Models Rust `str::parse::<usize>()` on a 64-bit target: an optional
leading `+`, then one or more decimal digits, value at most
`usize::MAX`; anything else (including a `-` sign) is an error. -/
def parseUsize (s : Str) : Option Nat :=
  let body := match s with
    | '+' :: r => r
    | _ => s
  if body = [] ∨ ¬ body.all Char.isDigit then none
  else if natOfDigits body < 2 ^ 64 then some (natOfDigits body) else none

/-- Models the source expression `value - 1` on `usize` in a release
build, where overflow wraps modulo `2 ^ 64` (`0 - 1 = usize::MAX`).  In
a debug build the same expression panics when `value = 0`. -/
def usizeSub1 (v : Nat) : Nat :=
  (v + (2 ^ 64 - 1)) % 2 ^ 64

/-- Model of an `f32` value as far as this program observes it: NaN,
the two infinities, or a finite value kept as an exact rational.
Rounding of finite decimal input to binary is not modelled (values are
kept exact), which is faithful for the comparisons, min/max folds and
the `x - x` subtraction the program performs. -/
inductive F32 where
  | nan
  | inf
  | neginf
  | finite (q : ℚ)
deriving DecidableEq

/-- IEEE-754 strict `<` on modelled `f32` values: any comparison with
NaN is false. -/
def flt : F32 → F32 → Bool
  | F32.nan, _ => false
  | _, F32.nan => false
  | F32.neginf, F32.neginf => false
  | F32.neginf, _ => true
  | _, F32.neginf => false
  | F32.inf, _ => false
  | F32.finite _, F32.inf => true
  | F32.finite a, F32.finite b => decide (a < b)

/-- IEEE-754 `≤` on modelled `f32` values: any comparison with NaN is
false. -/
def fle : F32 → F32 → Bool
  | F32.nan, _ => false
  | _, F32.nan => false
  | F32.neginf, _ => true
  | _, F32.neginf => false
  | _, F32.inf => true
  | F32.inf, _ => false
  | F32.finite a, F32.finite b => decide (a ≤ b)

/-- Models Rust `f32::min`: `if self < other || other.is_nan() { self }
else { other }`. -/
def fmin (a b : F32) : F32 :=
  if flt a b ∨ b = F32.nan then a else b

/-- Models Rust `f32::max`: `if self > other || other.is_nan() { self }
else { other }`. -/
def fmax (a b : F32) : F32 :=
  if flt b a ∨ b = F32.nan then a else b

/-- IEEE-754 subtraction on modelled `f32` values at the points the
program can reach: NaN propagates, `∞ - ∞ = NaN`, infinities absorb
finite operands, and finite subtraction is kept exact. -/
def fsub : F32 → F32 → F32
  | F32.nan, _ => F32.nan
  | _, F32.nan => F32.nan
  | F32.inf, F32.inf => F32.nan
  | F32.inf, _ => F32.inf
  | F32.neginf, F32.neginf => F32.nan
  | F32.neginf, _ => F32.neginf
  | F32.finite _, F32.inf => F32.neginf
  | F32.finite _, F32.neginf => F32.inf
  | F32.finite a, F32.finite b => F32.finite (a - b)

/-- ASCII lower-casing, as used when matching the special float
spellings `inf`, `infinity`, `NaN` case-insensitively. -/
def toLowerChar (c : Char) : Char :=
  if 'A' ≤ c ∧ c ≤ 'Z' then Char.ofNat (c.toNat + 32) else c

/-- The magnitude at and beyond which decimal input rounds to an `f32`
infinity (the round-to-nearest-even overflow threshold
`2 ^ 128 - 2 ^ 103`). -/
def f32OverflowThreshold : ℚ := ((2 ^ 128 - 2 ^ 103 : ℕ) : ℚ)

/-- Assemble the value of a parsed decimal float from its sign, integer
digits, fraction digits and decimal exponent, overflowing to the
appropriate infinity at the IEEE threshold.  The value
`±(ip.fp) * 10 ^ ex` is built as a single integer quotient so that it
is the exact rational the digits denote. -/
def mkF32 (neg : Bool) (ip fp : Str) (ex : ℤ) : F32 :=
  let m : ℤ := natOfDigits (ip ++ fp)
  let sm : ℤ := if neg then -m else m
  let e : ℤ := ex - fp.length
  let q : ℚ :=
    if 0 ≤ e then Rat.divInt (sm * ((10 ^ e.toNat : ℕ) : ℤ)) 1
    else Rat.divInt sm ((10 ^ (-e).toNat : ℕ) : ℤ)
  if f32OverflowThreshold ≤ q then F32.inf
  else if q ≤ -f32OverflowThreshold then F32.neginf
  else F32.finite q

/-- Exponent part of a decimal float: an optional sign then one or more
digits, consuming the rest of the token. -/
def parseExpPart (neg : Bool) (ip fp : Str) (r : Str) : Option F32 :=
  let eneg : Bool := match r with
    | '-' :: _ => true
    | _ => false
  let digits : Str := match r with
    | '+' :: d => d
    | '-' :: d => d
    | _ => r
  if digits = [] ∨ ¬ digits.all Char.isDigit then none
  else some (mkF32 neg ip fp (if eneg then -(natOfDigits digits : ℤ) else (natOfDigits digits : ℤ)))

/-- Mantissa then optional exponent: at least one digit overall is
required, and the token must be fully consumed. -/
def parseMantissaRest (neg : Bool) (ip fp rest : Str) : Option F32 :=
  if ip = [] ∧ fp = [] then none
  else match rest with
    | [] => some (mkF32 neg ip fp 0)
    | e :: r => if e = 'e' ∨ e = 'E' then parseExpPart neg ip fp r else none

/-- Decimal (non-special) part of the `f32` grammar:
`digits [. digits] [(e|E) [sign] digits]`. -/
def parseDecimal (neg : Bool) (body : Str) : Option F32 :=
  let ip := body.takeWhile Char.isDigit
  let rest1 := body.dropWhile Char.isDigit
  match rest1 with
  | '.' :: r => parseMantissaRest neg ip (r.takeWhile Char.isDigit) (r.dropWhile Char.isDigit)
  | _ => parseMantissaRest neg ip [] rest1

/-- Models Rust `str::parse::<f32>()`: an optional sign, then either a
case-insensitive special spelling (`inf`, `infinity`, `nan`) or a
decimal number with optional fraction and exponent. -/
def parseF32 (s : Str) : Option F32 :=
  match s with
  | [] => none
  | _ =>
    let neg : Bool := match s with
      | '-' :: _ => true
      | _ => false
    let body : Str := match s with
      | '+' :: r => r
      | '-' :: r => r
      | _ => s
    let lower := body.map toLowerChar
    if lower = w "inf" ∨ lower = w "infinity" then
      some (if neg then F32.neginf else F32.inf)
    else if lower = w "nan" then some F32.nan
    else parseDecimal neg body

/-- `struct Vertex { x, y, z }` from the source. -/
structure Vertex where
  x : F32
  y : F32
  z : F32
deriving DecidableEq

/-- `struct Normal { x, y, z }` from the source. -/
structure Normal where
  x : F32
  y : F32
  z : F32
deriving DecidableEq

/-- `struct TextureCoord { u, v }` from the source. -/
structure TextureCoord where
  u : F32
  v : F32
deriving DecidableEq

/-- `struct Face` from the source: three parallel index lists. -/
structure Face where
  vertex_indices : List Nat
  normal_indices : List Nat
  texture_indices : List Nat
deriving DecidableEq

/-- `fn parse_vertex`: requires at least 4 tokens and parses tokens 1,
2, 3 as `f32`; the `?` operator propagates any parse failure. -/
def parse_vertex (parts : List Str) : Option Vertex :=
  if 4 ≤ parts.length then
    (parseF32 (parts.getD 1 [])).bind fun x =>
    (parseF32 (parts.getD 2 [])).bind fun y =>
    (parseF32 (parts.getD 3 [])).map fun z => { x := x, y := y, z := z }
  else none

/-- `fn parse_normal`: identical in shape to `parse_vertex`. -/
def parse_normal (parts : List Str) : Option Normal :=
  if 4 ≤ parts.length then
    (parseF32 (parts.getD 1 [])).bind fun x =>
    (parseF32 (parts.getD 2 [])).bind fun y =>
    (parseF32 (parts.getD 3 [])).map fun z => { x := x, y := y, z := z }
  else none

/-- `fn parse_texture_coord`: requires at least 3 tokens and parses
tokens 1 and 2 as `f32`. -/
def parse_texture_coord (parts : List Str) : Option TextureCoord :=
  if 3 ≤ parts.length then
    (parseF32 (parts.getD 1 [])).bind fun u =>
    (parseF32 (parts.getD 2 [])).map fun v => { u := u, v := v }
  else none

/-- One iteration of the loop in `fn parse_face`: split the reference
token on `/`; a parse success in slot 0 appends to the vertex list, a
non-empty parse success in slot 1 appends to the texture list, and a
non-empty parse success in slot 2 appends to the normal list. -/
def refStep (f : Face) (tok : Str) : Face :=
  let indices := splitOnChar '/' tok
  let f1 := match parseUsize (indices.getD 0 []) with
    | some v => { f with vertex_indices := f.vertex_indices ++ [usizeSub1 v] }
    | none => f
  let f2 :=
    if 1 < indices.length ∧ indices.getD 1 [] ≠ [] then
      match parseUsize (indices.getD 1 []) with
      | some t => { f1 with texture_indices := f1.texture_indices ++ [usizeSub1 t] }
      | none => f1
    else f1
  if 2 < indices.length ∧ indices.getD 2 [] ≠ [] then
    match parseUsize (indices.getD 2 []) with
    | some n => { f2 with normal_indices := f2.normal_indices ++ [usizeSub1 n] }
    | none => f2
  else f2

/-- `fn parse_face`: fewer than 4 tokens is rejected; otherwise every
token after the keyword runs through `refStep` and the accumulated face
is returned unconditionally. -/
def parse_face (parts : List Str) : Option Face :=
  if parts.length < 4 then none
  else some ((parts.drop 1).foldl refStep { vertex_indices := [], normal_indices := [], texture_indices := [] })

/-- The mutable aggregate populated by `main`'s parsing loop. -/
structure Mesh where
  vertices : List Vertex
  normals : List Normal
  texcoords : List TextureCoord
  faces : List Face
  materials : List Str
  mtllibs : List Str
  objects : List Str
  groups : List Str
deriving DecidableEq

/-- The empty mesh `main` starts from. -/
def emptyMesh : Mesh :=
  { vertices := [], normals := [], texcoords := [], faces := [],
    materials := [], mtllibs := [], objects := [], groups := [] }

/-- The `match parts[0]` dispatcher in `main`'s loop, applied to the
token array of one line (the source checks `parts.is_empty()` first). -/
def dispatch (m : Mesh) (parts : List Str) : Mesh :=
  if parts = [] then m
  else if parts.headD [] = w "v" then
    match parse_vertex parts with
    | some a => { m with vertices := m.vertices ++ [a] }
    | none => m
  else if parts.headD [] = w "vn" then
    match parse_normal parts with
    | some a => { m with normals := m.normals ++ [a] }
    | none => m
  else if parts.headD [] = w "vt" then
    match parse_texture_coord parts with
    | some a => { m with texcoords := m.texcoords ++ [a] }
    | none => m
  else if parts.headD [] = w "f" then
    match parse_face parts with
    | some a => { m with faces := m.faces ++ [a] }
    | none => m
  else if parts.headD [] = w "usemtl" then
    if 1 < parts.length then { m with materials := m.materials ++ [parts.getD 1 []] } else m
  else if parts.headD [] = w "mtllib" then
    if 1 < parts.length then { m with mtllibs := m.mtllibs ++ [parts.getD 1 []] } else m
  else if parts.headD [] = w "o" then
    if 1 < parts.length then { m with objects := m.objects ++ [parts.getD 1 []] } else m
  else if parts.headD [] = w "g" then
    if 1 < parts.length then { m with groups := m.groups ++ [parts.getD 1 []] } else m
  else m

/-- Processing of one input line by `main`'s loop: trim, drop blank and
`#` lines, tokenise, dispatch. -/
def processLine (m : Mesh) (line : Str) : Mesh :=
  if trim line = [] then m
  else if (trim line).headD ' ' = '#' then m
  else dispatch m (split_whitespace (trim line))

/-- The whole parsing loop of `main` over the file's lines. -/
def processLines (m : Mesh) (lines : List Str) : Mesh :=
  lines.foldl processLine m

/-- The eight keyword strings recognised by the dispatcher. -/
def keywords : List Str :=
  [w "v", w "vn", w "vt", w "f", w "usemtl", w "mtllib", w "o", w "g"]

/-- The name captured from one line by a name directive (`usemtl`,
`mtllib`, `o`, `g`): token 1, provided the line survives the blank and
comment filters, its keyword matches, and it has at least two tokens. -/
def nameCapture (kw : Str) (line : Str) : Option Str :=
  if trim line = [] then none
  else if (trim line).headD ' ' = '#' then none
  else
    let parts := split_whitespace (trim line)
    if parts.headD [] = kw ∧ 1 < parts.length then some (parts.getD 1 []) else none

/-- `min_x` in `main`'s summary: fold of `f32::min` over the `x`
coordinates starting from `f32::INFINITY`. -/
def min_x (vs : List Vertex) : F32 :=
  (vs.map fun v => v.x).foldl fmin F32.inf

/-- `max_x` in `main`'s summary: fold of `f32::max` over the `x`
coordinates starting from `f32::NEG_INFINITY`. -/
def max_x (vs : List Vertex) : F32 :=
  (vs.map fun v => v.x).foldl fmax F32.neginf

/-- `min_y` in `main`'s summary. -/
def min_y (vs : List Vertex) : F32 :=
  (vs.map fun v => v.y).foldl fmin F32.inf

/-- `max_y` in `main`'s summary. -/
def max_y (vs : List Vertex) : F32 :=
  (vs.map fun v => v.y).foldl fmax F32.neginf

/-- `min_z` in `main`'s summary. -/
def min_z (vs : List Vertex) : F32 :=
  (vs.map fun v => v.z).foldl fmin F32.inf

/-- `max_z` in `main`'s summary. -/
def max_z (vs : List Vertex) : F32 :=
  (vs.map fun v => v.z).foldl fmax F32.neginf

/-- The bounding-box section of the summary: computed only when the
vertex sequence is non-empty, as the six folds above. -/
def bboxReport (vs : List Vertex) : Option (F32 × F32 × F32 × F32 × F32 × F32) :=
  if vs = [] then none
  else some (min_x vs, max_x vs, min_y vs, max_y vs, min_z vs, max_z vs)

/-- Observable outcome of one run of `main`. -/
structure RunResult where
  exitCode : Nat
  errOutput : Bool
  parsed : Option Mesh
deriving DecidableEq

/-- Model of `fn main` as a function of the input file: `none` means
the file does not exist or cannot be opened, in which case `main`
prints a diagnostic to stderr and executes `return`, which is a normal
process exit with status 0; otherwise every line is parsed and the
process also exits with status 0. -/
def runMain : Option (List Str) → RunResult
  | none => { exitCode := 0, errOutput := true, parsed := none }
  | some lines => { exitCode := 0, errOutput := false, parsed := some (processLines emptyMesh lines) }

/-! ## Helper lemmas -/

theorem parseUsize_lt (s : Str) (i : Nat) (h : parseUsize s = some i) : i < 2 ^ 64 := by
  simp only [parseUsize] at h
  split_ifs at h with h1 h2
  rw [Option.some_inj] at h
  exact h ▸ h2

theorem parseUsize_ne_nil (s : Str) (i : Nat) (h : parseUsize s = some i) : s ≠ [] := by
  intro hs
  subst hs
  simp [parseUsize] at h

theorem usizeSub1_eq (i : Nat) (h1 : 1 ≤ i) (h2 : i < 2 ^ 64) : usizeSub1 i = i - 1 := by
  unfold usizeSub1
  omega

theorem length_four_shape (l : List Str) (h : 4 ≤ l.length) :
    ∃ a b c d r, l = a :: b :: c :: d :: r := by
  rcases l with _ | ⟨a, _ | ⟨b, _ | ⟨c, _ | ⟨d, r⟩⟩⟩⟩
  · simp at h
  · simp at h
  · simp at h
  · simp at h
  · exact ⟨a, b, c, d, r, rfl⟩

theorem length_three_shape (l : List Str) (h : 3 ≤ l.length) :
    ∃ a b c r, l = a :: b :: c :: r := by
  rcases l with _ | ⟨a, _ | ⟨b, _ | ⟨c, r⟩⟩⟩
  · simp at h
  · simp at h
  · simp at h
  · exact ⟨a, b, c, r, rfl⟩

theorem splitOnCharAux_ne_nil (sep : Char) : ∀ (s cur : Str), splitOnCharAux sep s cur ≠ []
  | [], cur => by simp [splitOnCharAux]
  | c :: rest, cur => by
    simp only [splitOnCharAux]
    split_ifs
    · simp
    · exact splitOnCharAux_ne_nil sep rest (c :: cur)

theorem parse_vertex_cons (a b c d : Str) (r : List Str) :
    parse_vertex (a :: b :: c :: d :: r) =
      (parseF32 b).bind fun x => (parseF32 c).bind fun y => (parseF32 d).map fun z =>
        ({ x := x, y := y, z := z } : Vertex) := by
  have h : 4 ≤ (a :: b :: c :: d :: r).length := by simp
  simp only [parse_vertex, if_pos h]
  rfl

theorem parse_normal_cons (a b c d : Str) (r : List Str) :
    parse_normal (a :: b :: c :: d :: r) =
      (parseF32 b).bind fun x => (parseF32 c).bind fun y => (parseF32 d).map fun z =>
        ({ x := x, y := y, z := z } : Normal) := by
  have h : 4 ≤ (a :: b :: c :: d :: r).length := by simp
  simp only [parse_normal, if_pos h]
  rfl

theorem parse_texture_coord_cons (a b c : Str) (r : List Str) :
    parse_texture_coord (a :: b :: c :: r) =
      (parseF32 b).bind fun u => (parseF32 c).map fun v =>
        ({ u := u, v := v } : TextureCoord) := by
  have h : 3 ≤ (a :: b :: c :: r).length := by simp
  simp only [parse_texture_coord, if_pos h]
  rfl

/-! ## Claims -/

/-- C2 (code evaluation at the failing input): the face sub-parser
accepts the token `0`, which parses as `usize` value `0` even though it
is not a positive integer, and appends `0 - 1`, which underflows: in a
release build it wraps to `2 ^ 64 - 1` (a debug build panics at the
same subtraction).  This refutes the claim that an index is appended
only when the sub-string is a positive integer `i ≥ 1` and that the
subtraction never underflows. -/
theorem claim_C2_bug_eval :
    parse_face [w "f", w "0", w "2", w "3"] =
      some { vertex_indices := [2 ^ 64 - 1, 1, 2], normal_indices := [], texture_indices := [] } ∧
    parseUsize (w "0") = some 0 ∧ usizeSub1 0 = 2 ^ 64 - 1 := by
  decide

/-- C3: `parse_face` returns the skip signal `none` exactly when the
token array (keyword included) has fewer than 4 elements; with at least
4 tokens a face is always produced, even a degenerate one — on
`f x y z`, where no reference is a valid index, an empty face is still
emitted. -/
theorem claim_C3 :
    (∀ parts : List Str, parse_face parts = none ↔ parts.length < 4) ∧
    parse_face [w "f", w "x", w "y", w "z"] =
      some { vertex_indices := [], normal_indices := [], texture_indices := [] } := by
  constructor
  · intro parts
    by_cases h : parts.length < 4 <;> simp [parse_face, h]
  · decide

/-- Witness for C3 at a concrete input: a two-reference face line is
rejected. -/
theorem claim_C3_witness : parse_face [w "f", w "1", w "2"] = none :=
  (claim_C3.1 [w "f", w "1", w "2"]).mpr (by decide)

/-- C5: the vertex parser yields `none` on fewer than 4 tokens, and on
a token array with at least 4 tokens it is exactly the monadic parse of
tokens 1, 2, 3 into the `x`, `y`, `z` fields in order — any parse
failure gives `none`, and the tokens past index 3 (`r`) do not occur on
the right-hand side, so they are ignored.  The normal parser is
identical in shape. -/
theorem claim_C5 :
    (∀ parts : List Str, parts.length < 4 →
        parse_vertex parts = none ∧ parse_normal parts = none) ∧
    (∀ a b c d : Str, ∀ r : List Str,
        parse_vertex (a :: b :: c :: d :: r) =
          (parseF32 b).bind fun x => (parseF32 c).bind fun y => (parseF32 d).map fun z =>
            ({ x := x, y := y, z := z } : Vertex)) ∧
    (∀ parts : List Str,
        parse_normal parts = (parse_vertex parts).map fun v =>
          ({ x := v.x, y := v.y, z := v.z } : Normal)) := by
  refine ⟨?_, ?_, ?_⟩
  · intro parts h
    constructor <;> simp [parse_vertex, parse_normal, Nat.not_le.mpr h]
  · intro a b c d r
    exact parse_vertex_cons a b c d r
  · intro parts
    by_cases h : 4 ≤ parts.length
    · obtain ⟨a, b, c, d, r, rfl⟩ := length_four_shape parts h
      rw [parse_vertex_cons, parse_normal_cons]
      cases parseF32 b <;> cases parseF32 c <;> cases parseF32 d <;> rfl
    · simp [parse_vertex, parse_normal, h]

/-- Witness for C5: a short `v` line is skipped, and a well-formed one
parses tokens 1..3. -/
theorem claim_C5_witness :
    parse_vertex [w "v", w "1", w "2"] = none ∧
    parse_vertex [w "v", w "1", w "2", w "3", w "9"] =
      (parseF32 (w "1")).bind fun x => (parseF32 (w "2")).bind fun y =>
        (parseF32 (w "3")).map fun z => ({ x := x, y := y, z := z } : Vertex) :=
  ⟨(claim_C5.1 [w "v", w "1", w "2"] (by decide)).1,
   claim_C5.2.1 (w "v") (w "1") (w "2") (w "3") [w "9"]⟩

/-- C6: the texture-coordinate parser yields `none` on fewer than 3
tokens, and on at least 3 tokens it is exactly the monadic parse of
tokens 1 and 2 into `u` and `v` — the tokens past index 2 (`r`,
including the optional `w`) do not occur on the right-hand side, so
they have no effect. -/
theorem claim_C6 :
    (∀ parts : List Str, parts.length < 3 → parse_texture_coord parts = none) ∧
    (∀ a b c : Str, ∀ r : List Str,
        parse_texture_coord (a :: b :: c :: r) =
          (parseF32 b).bind fun u => (parseF32 c).map fun v =>
            ({ u := u, v := v } : TextureCoord)) := by
  refine ⟨?_, ?_⟩
  · intro parts h
    simp [parse_texture_coord, Nat.not_le.mpr h]
  · intro a b c r
    exact parse_texture_coord_cons a b c r

/-- Witness for C6: a `vt` line with three coordinates keeps only the
first two. -/
theorem claim_C6_witness :
    (parse_texture_coord [w "vt", w "1", w "2"] =
      (parseF32 (w "1")).bind fun u => (parseF32 (w "2")).map fun v =>
        ({ u := u, v := v } : TextureCoord)) ∧
    parse_texture_coord [w "vt", w "1"] = none :=
  ⟨claim_C6.2 (w "vt") (w "1") (w "2") [],
   claim_C6.1 [w "vt", w "1"] (by decide)⟩

/-- C4: for reference tokens of the four grammatical forms `i`, `i/t`,
`i//n`, `i/t/n` with parseable positive integers, exactly the slots
present are appended (each as its value minus one); an empty second
sub-string contributes nothing to the texture list, a missing third
sub-string contributes nothing to the normal list, and a parse failure
in a secondary slot (`bad`) omits only that slot without invalidating
the vertex slot. -/
theorem claim_C4 (f : Face) (tok a b c bad : Str) (i t n : Nat)
    (ha : parseUsize a = some i) (hi : 1 ≤ i)
    (hb : parseUsize b = some t) (ht : 1 ≤ t)
    (hc : parseUsize c = some n) (hn : 1 ≤ n)
    (hbad : parseUsize bad = none) :
    (splitOnChar '/' tok = [a] →
      refStep f tok = { f with vertex_indices := f.vertex_indices ++ [i - 1] }) ∧
    (splitOnChar '/' tok = [a, b] →
      refStep f tok = { f with vertex_indices := f.vertex_indices ++ [i - 1],
                               texture_indices := f.texture_indices ++ [t - 1] }) ∧
    (splitOnChar '/' tok = [a, [], c] →
      refStep f tok = { f with vertex_indices := f.vertex_indices ++ [i - 1],
                               normal_indices := f.normal_indices ++ [n - 1] }) ∧
    (splitOnChar '/' tok = [a, b, c] →
      refStep f tok = { f with vertex_indices := f.vertex_indices ++ [i - 1],
                               texture_indices := f.texture_indices ++ [t - 1],
                               normal_indices := f.normal_indices ++ [n - 1] }) ∧
    (splitOnChar '/' tok = [a, bad] →
      refStep f tok = { f with vertex_indices := f.vertex_indices ++ [i - 1] }) ∧
    (splitOnChar '/' tok = [a, b, bad] →
      refStep f tok = { f with vertex_indices := f.vertex_indices ++ [i - 1],
                               texture_indices := f.texture_indices ++ [t - 1] }) := by
  have hia : usizeSub1 i = i - 1 := usizeSub1_eq i hi (parseUsize_lt a i ha)
  have hta : usizeSub1 t = t - 1 := usizeSub1_eq t ht (parseUsize_lt b t hb)
  have hna : usizeSub1 n = n - 1 := usizeSub1_eq n hn (parseUsize_lt c n hc)
  have hbne : b ≠ [] := parseUsize_ne_nil b t hb
  have hcne : c ≠ [] := parseUsize_ne_nil c n hc
  refine ⟨?_, ?_, ?_, ?_, ?_, ?_⟩ <;> intro hs <;>
    simp [refStep, hs, ha, hb, hc, hbad, hia, hta, hna, hbne, hcne]

/-- Witness for C4 at the concrete token `1/2/3` (and failure token
`x`): all three slots are populated with value minus one. -/
theorem claim_C4_witness :
    refStep { vertex_indices := [], normal_indices := [], texture_indices := [] } (w "1/2/3") =
      { vertex_indices := [0], normal_indices := [2], texture_indices := [1] } := by
  have h := (claim_C4 { vertex_indices := [], normal_indices := [], texture_indices := [] }
    (w "1/2/3") (w "1") (w "2") (w "3") (w "x") 1 2 3
    (by decide) (by decide) (by decide) (by decide) (by decide) (by decide) (by decide)).2.2.2.1
  exact h (by decide)

theorem dispatch_eq_nil (m : Mesh) : dispatch m [] = m := by
  unfold dispatch
  rw [if_pos rfl]

theorem dispatch_eq_v (m : Mesh) (parts : List Str) (h0 : parts ≠ [])
    (h : parts.headD [] = w "v") :
    dispatch m parts = match parse_vertex parts with
      | some a => { m with vertices := m.vertices ++ [a] }
      | none => m := by
  unfold dispatch
  rw [if_neg h0, if_pos h]

theorem dispatch_eq_vn (m : Mesh) (parts : List Str) (h0 : parts ≠ [])
    (h : parts.headD [] = w "vn") :
    dispatch m parts = match parse_normal parts with
      | some a => { m with normals := m.normals ++ [a] }
      | none => m := by
  unfold dispatch
  rw [if_neg h0, if_neg (fun hc => absurd (hc.symm.trans h) (by decide)), if_pos h]

theorem dispatch_eq_vt (m : Mesh) (parts : List Str) (h0 : parts ≠ [])
    (h : parts.headD [] = w "vt") :
    dispatch m parts = match parse_texture_coord parts with
      | some a => { m with texcoords := m.texcoords ++ [a] }
      | none => m := by
  unfold dispatch
  rw [if_neg h0, if_neg (fun hc => absurd (hc.symm.trans h) (by decide)),
    if_neg (fun hc => absurd (hc.symm.trans h) (by decide)), if_pos h]

theorem dispatch_eq_f (m : Mesh) (parts : List Str) (h0 : parts ≠ [])
    (h : parts.headD [] = w "f") :
    dispatch m parts = match parse_face parts with
      | some a => { m with faces := m.faces ++ [a] }
      | none => m := by
  unfold dispatch
  rw [if_neg h0, if_neg (fun hc => absurd (hc.symm.trans h) (by decide)),
    if_neg (fun hc => absurd (hc.symm.trans h) (by decide)),
    if_neg (fun hc => absurd (hc.symm.trans h) (by decide)), if_pos h]

theorem dispatch_eq_usemtl (m : Mesh) (parts : List Str) (h0 : parts ≠ [])
    (h : parts.headD [] = w "usemtl") :
    dispatch m parts =
      if 1 < parts.length then { m with materials := m.materials ++ [parts.getD 1 []] }
      else m := by
  unfold dispatch
  rw [if_neg h0, if_neg (fun hc => absurd (hc.symm.trans h) (by decide)),
    if_neg (fun hc => absurd (hc.symm.trans h) (by decide)),
    if_neg (fun hc => absurd (hc.symm.trans h) (by decide)),
    if_neg (fun hc => absurd (hc.symm.trans h) (by decide)), if_pos h]

theorem dispatch_eq_mtllib (m : Mesh) (parts : List Str) (h0 : parts ≠ [])
    (h : parts.headD [] = w "mtllib") :
    dispatch m parts =
      if 1 < parts.length then { m with mtllibs := m.mtllibs ++ [parts.getD 1 []] }
      else m := by
  unfold dispatch
  rw [if_neg h0, if_neg (fun hc => absurd (hc.symm.trans h) (by decide)),
    if_neg (fun hc => absurd (hc.symm.trans h) (by decide)),
    if_neg (fun hc => absurd (hc.symm.trans h) (by decide)),
    if_neg (fun hc => absurd (hc.symm.trans h) (by decide)),
    if_neg (fun hc => absurd (hc.symm.trans h) (by decide)), if_pos h]

theorem dispatch_eq_o (m : Mesh) (parts : List Str) (h0 : parts ≠ [])
    (h : parts.headD [] = w "o") :
    dispatch m parts =
      if 1 < parts.length then { m with objects := m.objects ++ [parts.getD 1 []] }
      else m := by
  unfold dispatch
  rw [if_neg h0, if_neg (fun hc => absurd (hc.symm.trans h) (by decide)),
    if_neg (fun hc => absurd (hc.symm.trans h) (by decide)),
    if_neg (fun hc => absurd (hc.symm.trans h) (by decide)),
    if_neg (fun hc => absurd (hc.symm.trans h) (by decide)),
    if_neg (fun hc => absurd (hc.symm.trans h) (by decide)),
    if_neg (fun hc => absurd (hc.symm.trans h) (by decide)), if_pos h]

theorem dispatch_eq_g (m : Mesh) (parts : List Str) (h0 : parts ≠ [])
    (h : parts.headD [] = w "g") :
    dispatch m parts =
      if 1 < parts.length then { m with groups := m.groups ++ [parts.getD 1 []] }
      else m := by
  unfold dispatch
  rw [if_neg h0, if_neg (fun hc => absurd (hc.symm.trans h) (by decide)),
    if_neg (fun hc => absurd (hc.symm.trans h) (by decide)),
    if_neg (fun hc => absurd (hc.symm.trans h) (by decide)),
    if_neg (fun hc => absurd (hc.symm.trans h) (by decide)),
    if_neg (fun hc => absurd (hc.symm.trans h) (by decide)),
    if_neg (fun hc => absurd (hc.symm.trans h) (by decide)),
    if_neg (fun hc => absurd (hc.symm.trans h) (by decide)), if_pos h]

theorem dispatch_eq_other (m : Mesh) (parts : List Str) (h0 : parts ≠ [])
    (h : parts.headD [] ∉ keywords) : dispatch m parts = m := by
  simp only [keywords, List.mem_cons, not_or] at h
  obtain ⟨h1, h2, h3, h4, h5, h6, h7, h8, -⟩ := h
  unfold dispatch
  rw [if_neg h0, if_neg h1, if_neg h2, if_neg h3, if_neg h4, if_neg h5, if_neg h6,
    if_neg h7, if_neg h8]

theorem dispatch_names (m : Mesh) (parts : List Str) :
    (dispatch m parts).materials =
      m.materials ++
        (if parts.headD [] = w "usemtl" ∧ 1 < parts.length then [parts.getD 1 []] else []) ∧
    (dispatch m parts).mtllibs =
      m.mtllibs ++
        (if parts.headD [] = w "mtllib" ∧ 1 < parts.length then [parts.getD 1 []] else []) ∧
    (dispatch m parts).objects =
      m.objects ++
        (if parts.headD [] = w "o" ∧ 1 < parts.length then [parts.getD 1 []] else []) ∧
    (dispatch m parts).groups =
      m.groups ++
        (if parts.headD [] = w "g" ∧ 1 < parts.length then [parts.getD 1 []] else []) := by
  by_cases h0 : parts = []
  · subst h0
    rw [dispatch_eq_nil]
    refine ⟨?_, ?_, ?_, ?_⟩ <;> simp
  · by_cases h1 : parts.headD [] = w "v"
    · rw [dispatch_eq_v m parts h0 h1]
      refine ⟨?_, ?_, ?_, ?_⟩ <;>
        rw [if_neg (fun hc => absurd (h1.symm.trans hc.1) (by decide))] <;>
        cases parse_vertex parts <;> simp
    · by_cases h2 : parts.headD [] = w "vn"
      · rw [dispatch_eq_vn m parts h0 h2]
        refine ⟨?_, ?_, ?_, ?_⟩ <;>
          rw [if_neg (fun hc => absurd (h2.symm.trans hc.1) (by decide))] <;>
          cases parse_normal parts <;> simp
      · by_cases h3 : parts.headD [] = w "vt"
        · rw [dispatch_eq_vt m parts h0 h3]
          refine ⟨?_, ?_, ?_, ?_⟩ <;>
            rw [if_neg (fun hc => absurd (h3.symm.trans hc.1) (by decide))] <;>
            cases parse_texture_coord parts <;> simp
        · by_cases h4 : parts.headD [] = w "f"
          · rw [dispatch_eq_f m parts h0 h4]
            refine ⟨?_, ?_, ?_, ?_⟩ <;>
              rw [if_neg (fun hc => absurd (h4.symm.trans hc.1) (by decide))] <;>
              cases parse_face parts <;> simp
          · by_cases h5 : parts.headD [] = w "usemtl"
            · rw [dispatch_eq_usemtl m parts h0 h5]
              by_cases hl : 1 < parts.length
              · rw [if_pos hl]
                refine ⟨?_, ?_, ?_, ?_⟩
                · rw [if_pos ⟨h5, hl⟩]
                · rw [if_neg (fun hc => absurd (h5.symm.trans hc.1) (by decide))] <;> simp
                · rw [if_neg (fun hc => absurd (h5.symm.trans hc.1) (by decide))] <;> simp
                · rw [if_neg (fun hc => absurd (h5.symm.trans hc.1) (by decide))] <;> simp
              · rw [if_neg hl]
                refine ⟨?_, ?_, ?_, ?_⟩
                · rw [if_neg (fun hc => absurd hc.2 hl)] <;> simp
                · rw [if_neg (fun hc => absurd (h5.symm.trans hc.1) (by decide))] <;> simp
                · rw [if_neg (fun hc => absurd (h5.symm.trans hc.1) (by decide))] <;> simp
                · rw [if_neg (fun hc => absurd (h5.symm.trans hc.1) (by decide))] <;> simp
            · by_cases h6 : parts.headD [] = w "mtllib"
              · rw [dispatch_eq_mtllib m parts h0 h6]
                by_cases hl : 1 < parts.length
                · rw [if_pos hl]
                  refine ⟨?_, ?_, ?_, ?_⟩
                  · rw [if_neg (fun hc => absurd (h6.symm.trans hc.1) (by decide))] <;> simp
                  · rw [if_pos ⟨h6, hl⟩]
                  · rw [if_neg (fun hc => absurd (h6.symm.trans hc.1) (by decide))] <;> simp
                  · rw [if_neg (fun hc => absurd (h6.symm.trans hc.1) (by decide))] <;> simp
                · rw [if_neg hl]
                  refine ⟨?_, ?_, ?_, ?_⟩
                  · rw [if_neg (fun hc => absurd (h6.symm.trans hc.1) (by decide))] <;> simp
                  · rw [if_neg (fun hc => absurd hc.2 hl)] <;> simp
                  · rw [if_neg (fun hc => absurd (h6.symm.trans hc.1) (by decide))] <;> simp
                  · rw [if_neg (fun hc => absurd (h6.symm.trans hc.1) (by decide))] <;> simp
              · by_cases h7 : parts.headD [] = w "o"
                · rw [dispatch_eq_o m parts h0 h7]
                  by_cases hl : 1 < parts.length
                  · rw [if_pos hl]
                    refine ⟨?_, ?_, ?_, ?_⟩
                    · rw [if_neg (fun hc => absurd (h7.symm.trans hc.1) (by decide))] <;> simp
                    · rw [if_neg (fun hc => absurd (h7.symm.trans hc.1) (by decide))] <;> simp
                    · rw [if_pos ⟨h7, hl⟩]
                    · rw [if_neg (fun hc => absurd (h7.symm.trans hc.1) (by decide))] <;> simp
                  · rw [if_neg hl]
                    refine ⟨?_, ?_, ?_, ?_⟩
                    · rw [if_neg (fun hc => absurd (h7.symm.trans hc.1) (by decide))] <;> simp
                    · rw [if_neg (fun hc => absurd (h7.symm.trans hc.1) (by decide))] <;> simp
                    · rw [if_neg (fun hc => absurd hc.2 hl)] <;> simp
                    · rw [if_neg (fun hc => absurd (h7.symm.trans hc.1) (by decide))] <;> simp
                · by_cases h8 : parts.headD [] = w "g"
                  · rw [dispatch_eq_g m parts h0 h8]
                    by_cases hl : 1 < parts.length
                    · rw [if_pos hl]
                      refine ⟨?_, ?_, ?_, ?_⟩
                      · rw [if_neg (fun hc => absurd (h8.symm.trans hc.1) (by decide))] <;> simp
                      · rw [if_neg (fun hc => absurd (h8.symm.trans hc.1) (by decide))] <;> simp
                      · rw [if_neg (fun hc => absurd (h8.symm.trans hc.1) (by decide))] <;> simp
                      · rw [if_pos ⟨h8, hl⟩]
                    · rw [if_neg hl]
                      refine ⟨?_, ?_, ?_, ?_⟩
                      · rw [if_neg (fun hc => absurd (h8.symm.trans hc.1) (by decide))] <;> simp
                      · rw [if_neg (fun hc => absurd (h8.symm.trans hc.1) (by decide))] <;> simp
                      · rw [if_neg (fun hc => absurd (h8.symm.trans hc.1) (by decide))] <;> simp
                      · rw [if_neg (fun hc => absurd hc.2 hl)] <;> simp
                  · have hnk : parts.headD [] ∉ keywords := by
                      intro hmem
                      simp only [keywords, List.mem_cons, List.not_mem_nil, or_false] at hmem
                      rcases hmem with h | h | h | h | h | h | h | h
                      exacts [h1 h, h2 h, h3 h, h4 h, h5 h, h6 h, h7 h, h8 h]
                    rw [dispatch_eq_other m parts h0 hnk]
                    refine ⟨?_, ?_, ?_, ?_⟩
                    · rw [if_neg (fun hc => absurd hc.1 h5)] <;> simp
                    · rw [if_neg (fun hc => absurd hc.1 h6)] <;> simp
                    · rw [if_neg (fun hc => absurd hc.1 h7)] <;> simp
                    · rw [if_neg (fun hc => absurd hc.1 h8)] <;> simp

theorem dispatch_materials (m : Mesh) (parts : List Str) :
    (dispatch m parts).materials =
      m.materials ++
        (if parts.headD [] = w "usemtl" ∧ 1 < parts.length then [parts.getD 1 []] else []) :=
  (dispatch_names m parts).1

theorem dispatch_mtllibs (m : Mesh) (parts : List Str) :
    (dispatch m parts).mtllibs =
      m.mtllibs ++
        (if parts.headD [] = w "mtllib" ∧ 1 < parts.length then [parts.getD 1 []] else []) :=
  (dispatch_names m parts).2.1

theorem dispatch_objects (m : Mesh) (parts : List Str) :
    (dispatch m parts).objects =
      m.objects ++
        (if parts.headD [] = w "o" ∧ 1 < parts.length then [parts.getD 1 []] else []) :=
  (dispatch_names m parts).2.2.1

theorem dispatch_groups (m : Mesh) (parts : List Str) :
    (dispatch m parts).groups =
      m.groups ++
        (if parts.headD [] = w "g" ∧ 1 < parts.length then [parts.getD 1 []] else []) :=
  (dispatch_names m parts).2.2.2

theorem processLine_materials (m : Mesh) (l : Str) :
    (processLine m l).materials = m.materials ++ (nameCapture (w "usemtl") l).toList := by
  simp only [processLine, nameCapture]
  split_ifs with h1 h2 h3
  · simp
  · simp
  · rw [dispatch_materials, if_pos h3]
    rfl
  · rw [dispatch_materials, if_neg h3]
    rfl

theorem processLine_mtllibs (m : Mesh) (l : Str) :
    (processLine m l).mtllibs = m.mtllibs ++ (nameCapture (w "mtllib") l).toList := by
  simp only [processLine, nameCapture]
  split_ifs with h1 h2 h3
  · simp
  · simp
  · rw [dispatch_mtllibs, if_pos h3]
    rfl
  · rw [dispatch_mtllibs, if_neg h3]
    rfl

theorem processLine_objects (m : Mesh) (l : Str) :
    (processLine m l).objects = m.objects ++ (nameCapture (w "o") l).toList := by
  simp only [processLine, nameCapture]
  split_ifs with h1 h2 h3
  · simp
  · simp
  · rw [dispatch_objects, if_pos h3]
    rfl
  · rw [dispatch_objects, if_neg h3]
    rfl

theorem processLine_groups (m : Mesh) (l : Str) :
    (processLine m l).groups = m.groups ++ (nameCapture (w "g") l).toList := by
  simp only [processLine, nameCapture]
  split_ifs with h1 h2 h3
  · simp
  · simp
  · rw [dispatch_groups, if_pos h3]
    rfl
  · rw [dispatch_groups, if_neg h3]
    rfl

/-- C7: for each of the four name directives, a processed input
contributes exactly the `nameCapture` of each line — token 1 of every
surviving line whose keyword matches and which has at least two tokens
— appended in source order with multiplicity; lines with fewer than two
tokens contribute nothing, and tokens past index 1 do not appear. -/
theorem claim_C7 : ∀ (lines : List Str) (m : Mesh),
    (processLines m lines).materials = m.materials ++ lines.filterMap (nameCapture (w "usemtl")) ∧
    (processLines m lines).mtllibs = m.mtllibs ++ lines.filterMap (nameCapture (w "mtllib")) ∧
    (processLines m lines).objects = m.objects ++ lines.filterMap (nameCapture (w "o")) ∧
    (processLines m lines).groups = m.groups ++ lines.filterMap (nameCapture (w "g")) := by
  intro lines
  induction lines with
  | nil => intro m; simp [processLines]
  | cons l ls ih =>
    intro m
    obtain ⟨i1, i2, i3, i4⟩ := ih (processLine m l)
    have e : processLines m (l :: ls) = processLines (processLine m l) ls := rfl
    refine ⟨?_, ?_, ?_, ?_⟩
    · rw [e, i1, processLine_materials, List.filterMap_cons]
      cases nameCapture (w "usemtl") l <;> simp
    · rw [e, i2, processLine_mtllibs, List.filterMap_cons]
      cases nameCapture (w "mtllib") l <;> simp
    · rw [e, i3, processLine_objects, List.filterMap_cons]
      cases nameCapture (w "o") l <;> simp
    · rw [e, i4, processLine_groups, List.filterMap_cons]
      cases nameCapture (w "g") l <;> simp

theorem dispatch_unknown (m : Mesh) (parts : List Str) (h : parts.headD [] ∉ keywords) :
    dispatch m parts = m := by
  by_cases h0 : parts = []
  · subst h0
    exact dispatch_eq_nil m
  · exact dispatch_eq_other m parts h0 h

theorem processLine_ignorable (m : Mesh) (l : Str)
    (h : trim l = [] ∨ (trim l).headD ' ' = '#' ∨
      (split_whitespace (trim l)).headD [] ∉ keywords) :
    processLine m l = m := by
  simp only [processLine]
  by_cases h1 : trim l = []
  · rw [if_pos h1]
  · rw [if_neg h1]
    by_cases h2 : (trim l).headD ' ' = '#'
    · rw [if_pos h2]
    · rw [if_neg h2]
      exact dispatch_unknown m _ ((h.resolve_left h1).resolve_left h2)

/-- C8: inserting one ignorable line (blank after trimming, comment, or
unknown directive) anywhere into an input leaves the resulting mesh
unchanged, and an input consisting solely of comment and blank lines
produces the empty mesh. -/
theorem claim_C8 :
    (∀ (m : Mesh) (pre post : List Str) (ign : Str),
        (trim ign = [] ∨ (trim ign).headD ' ' = '#' ∨
          (split_whitespace (trim ign)).headD [] ∉ keywords) →
        processLines m (pre ++ ign :: post) = processLines m (pre ++ post)) ∧
    (∀ lines : List Str, (∀ l ∈ lines, trim l = [] ∨ (trim l).headD ' ' = '#') →
        processLines emptyMesh lines = emptyMesh) := by
  constructor
  · intro m pre post ign h
    unfold processLines
    rw [List.foldl_append, List.foldl_append, List.foldl_cons, processLine_ignorable _ ign h]
  · intro lines
    induction lines with
    | nil => intro _; rfl
    | cons l ls ih =>
      intro h
      have hl := h l (by simp)
      have hid : processLine emptyMesh l = emptyMesh :=
        processLine_ignorable _ _ (hl.elim Or.inl (fun p => Or.inr (Or.inl p)))
      show processLines (processLine emptyMesh l) ls = emptyMesh
      rw [hid]
      exact ih (fun x hx => h x (by simp [hx]))

/-- Witness for C8: inserting the unknown-directive line `s 1` after a
vertex line changes nothing, and a comment plus a blank line parse to
the empty mesh. -/
theorem claim_C8_witness :
    processLines emptyMesh [w "v 0 0 0", w "s 1"] = processLines emptyMesh [w "v 0 0 0"] ∧
    processLines emptyMesh [w "# header", w "   "] = emptyMesh :=
  ⟨claim_C8.1 emptyMesh [w "v 0 0 0"] [] (w "s 1") (by decide),
   claim_C8.2 [w "# header", w "   "] (by decide)⟩

/-- C10: the per-line step is total: splitting any face-reference token
on `/` yields at least one sub-string (so reading the first sub-string
cannot fail), and processing one line either leaves the mesh unchanged
or appends exactly one element to exactly one of the eight sequences. -/
theorem claim_C10 :
    (∀ s : Str, 1 ≤ (splitOnChar '/' s).length) ∧
    (∀ (m : Mesh) (line : Str),
        processLine m line = m ∨
        (∃ a, processLine m line = { m with vertices := m.vertices ++ [a] }) ∨
        (∃ a, processLine m line = { m with normals := m.normals ++ [a] }) ∨
        (∃ a, processLine m line = { m with texcoords := m.texcoords ++ [a] }) ∨
        (∃ a, processLine m line = { m with faces := m.faces ++ [a] }) ∨
        (∃ a, processLine m line = { m with materials := m.materials ++ [a] }) ∨
        (∃ a, processLine m line = { m with mtllibs := m.mtllibs ++ [a] }) ∨
        (∃ a, processLine m line = { m with objects := m.objects ++ [a] }) ∨
        (∃ a, processLine m line = { m with groups := m.groups ++ [a] })) := by
  constructor
  · intro s
    have h : splitOnChar '/' s ≠ [] := splitOnCharAux_ne_nil '/' s []
    cases he : splitOnChar '/' s with
    | nil => exact absurd he h
    | cons x xs => simp
  · intro m line
    by_cases hb : trim line = []
    · exact Or.inl (processLine_ignorable m line (Or.inl hb))
    · by_cases hc : (trim line).headD ' ' = '#'
      · exact Or.inl (processLine_ignorable m line (Or.inr (Or.inl hc)))
      · have he : processLine m line = dispatch m (split_whitespace (trim line)) := by
          simp only [processLine, if_neg hb, if_neg hc]
        rw [he]
        generalize split_whitespace (trim line) = parts
        by_cases h0 : parts = []
        · subst h0
          exact Or.inl (dispatch_eq_nil m)
        · by_cases h1 : parts.headD [] = w "v"
          · rw [dispatch_eq_v m parts h0 h1]
            cases parse_vertex parts with
            | none => exact Or.inl rfl
            | some a => exact Or.inr (Or.inl ⟨a, rfl⟩)
          · by_cases h2 : parts.headD [] = w "vn"
            · rw [dispatch_eq_vn m parts h0 h2]
              cases parse_normal parts with
              | none => exact Or.inl rfl
              | some a => exact Or.inr (Or.inr (Or.inl ⟨a, rfl⟩))
            · by_cases h3 : parts.headD [] = w "vt"
              · rw [dispatch_eq_vt m parts h0 h3]
                cases parse_texture_coord parts with
                | none => exact Or.inl rfl
                | some a => exact Or.inr (Or.inr (Or.inr (Or.inl ⟨a, rfl⟩)))
              · by_cases h4 : parts.headD [] = w "f"
                · rw [dispatch_eq_f m parts h0 h4]
                  cases parse_face parts with
                  | none => exact Or.inl rfl
                  | some a => exact Or.inr (Or.inr (Or.inr (Or.inr (Or.inl ⟨a, rfl⟩))))
                · by_cases h5 : parts.headD [] = w "usemtl"
                  · rw [dispatch_eq_usemtl m parts h0 h5]
                    by_cases hl : 1 < parts.length
                    · rw [if_pos hl]
                      exact Or.inr (Or.inr (Or.inr (Or.inr (Or.inr (Or.inl ⟨_, rfl⟩)))))
                    · rw [if_neg hl]
                      exact Or.inl rfl
                  · by_cases h6 : parts.headD [] = w "mtllib"
                    · rw [dispatch_eq_mtllib m parts h0 h6]
                      by_cases hl : 1 < parts.length
                      · rw [if_pos hl]
                        exact Or.inr (Or.inr (Or.inr (Or.inr (Or.inr (Or.inr
                          (Or.inl ⟨_, rfl⟩))))))
                      · rw [if_neg hl]
                        exact Or.inl rfl
                    · by_cases h7 : parts.headD [] = w "o"
                      · rw [dispatch_eq_o m parts h0 h7]
                        by_cases hl : 1 < parts.length
                        · rw [if_pos hl]
                          exact Or.inr (Or.inr (Or.inr (Or.inr (Or.inr (Or.inr (Or.inr
                            (Or.inl ⟨_, rfl⟩)))))))
                        · rw [if_neg hl]
                          exact Or.inl rfl
                      · by_cases h8 : parts.headD [] = w "g"
                        · rw [dispatch_eq_g m parts h0 h8]
                          by_cases hl : 1 < parts.length
                          · rw [if_pos hl]
                            exact Or.inr (Or.inr (Or.inr (Or.inr (Or.inr (Or.inr (Or.inr
                              (Or.inr ⟨_, rfl⟩)))))))
                          · rw [if_neg hl]
                            exact Or.inl rfl
                        · have hnk : parts.headD [] ∉ keywords := by
                            intro hmem
                            simp only [keywords, List.mem_cons, List.not_mem_nil, or_false] at hmem
                            rcases hmem with h | h | h | h | h | h | h | h
                            exacts [h1 h, h2 h, h3 h, h4 h, h5 h, h6 h, h7 h, h8 h]
                          exact Or.inl (dispatch_eq_other m parts h0 hnk)

/-- C1 (counterexample): when the input file cannot be opened the
program does print a diagnostic to the error stream and does not parse,
but the `return` in `main` is a normal exit: the process exit status is
`0`, not non-zero as the claim states. -/
theorem claim_C1_counterexample :
    (runMain none).exitCode = 0 ∧ (runMain none).errOutput = true ∧
    (runMain none).parsed = none := by
  decide

/-- C1 (amended): if the input file does not exist or cannot be opened,
the program emits a diagnostic to the error stream and terminates
without attempting to parse, and the process exit status is 0; for
every input that can be opened all lines are parsed and the exit status
is likewise 0. -/
theorem claim_C1_amended :
    (runMain none).errOutput = true ∧ (runMain none).parsed = none ∧
    (∀ f : Option (List Str), (runMain f).exitCode = 0) ∧
    (∀ lines : List Str,
        (runMain (some lines)).parsed = some (processLines emptyMesh lines) ∧
        (runMain (some lines)).errOutput = false) := by
  refine ⟨rfl, rfl, ?_, ?_⟩
  · intro f
    cases f <;> rfl
  · intro lines
    exact ⟨rfl, rfl⟩

theorem flt_imp_fle {a b : F32} (h : flt a b = true) : fle a b = true := by
  cases a <;> cases b <;> simp_all [flt, fle]
  exact le_of_lt h

theorem fle_refl (a : F32) (h : a ≠ F32.nan) : fle a a = true := by
  cases a <;> simp_all [fle]

theorem fle_trans {a b c : F32} (h1 : fle a b = true) (h2 : fle b c = true) :
    fle a c = true := by
  cases a <;> cases b <;> cases c <;> simp_all [fle]
  exact le_trans h1 h2

theorem fmin_ne_nan {a b : F32} (ha : a ≠ F32.nan) (hb : b ≠ F32.nan) :
    fmin a b ≠ F32.nan := by
  unfold fmin
  split_ifs <;> assumption

theorem fmax_ne_nan {a b : F32} (ha : a ≠ F32.nan) (hb : b ≠ F32.nan) :
    fmax a b ≠ F32.nan := by
  unfold fmax
  split_ifs <;> assumption

theorem fle_fmin_right {a b : F32} (hb : b ≠ F32.nan) : fle (fmin a b) b = true := by
  unfold fmin
  split_ifs with h
  · rcases h with h | h
    · exact flt_imp_fle h
    · exact absurd h hb
  · exact fle_refl b hb

theorem fle_fmax_right {b x : F32} (hx : x ≠ F32.nan) : fle x (fmax b x) = true := by
  unfold fmax
  split_ifs with h
  · rcases h with h | h
    · exact flt_imp_fle h
    · exact absurd h hx
  · exact fle_refl x hx

theorem foldl_fmin_fmax (l : List F32) : ∀ (a b : F32), a ≠ F32.nan → b ≠ F32.nan →
    fle a b = true → (∀ x ∈ l, x ≠ F32.nan) →
    l.foldl fmin a ≠ F32.nan ∧ l.foldl fmax b ≠ F32.nan ∧
      fle (l.foldl fmin a) (l.foldl fmax b) = true := by
  induction l with
  | nil =>
    intro a b ha hb hab _
    exact ⟨ha, hb, hab⟩
  | cons x xs ih =>
    intro a b ha hb hab hall
    have hx : x ≠ F32.nan := hall x (by simp)
    have ha' : fmin a x ≠ F32.nan := fmin_ne_nan ha hx
    have hb' : fmax b x ≠ F32.nan := fmax_ne_nan hb hx
    have hab' : fle (fmin a x) (fmax b x) = true :=
      fle_trans (fle_fmin_right hx) (fle_fmax_right hx)
    exact ih (fmin a x) (fmax b x) ha' hb' hab' (fun y hy => hall y (by simp [hy]))

theorem fmin_inf {x : F32} (hx : x ≠ F32.nan) : fmin F32.inf x = x := by
  unfold fmin
  rw [if_neg]
  intro h
  rcases h with h | h
  · cases x <;> simp [flt] at h
  · exact hx h

theorem fmax_neginf {x : F32} (hx : x ≠ F32.nan) : fmax F32.neginf x = x := by
  unfold fmax
  rw [if_neg]
  intro h
  rcases h with h | h
  · cases x <;> simp [flt] at h
  · exact hx h

theorem minmax_axis (g : Vertex → F32) (v : Vertex) (vs : List Vertex)
    (hall : ∀ u ∈ v :: vs, g u ≠ F32.nan) :
    fle (((v :: vs).map g).foldl fmin F32.inf) (((v :: vs).map g).foldl fmax F32.neginf) =
      true := by
  have hv : g v ≠ F32.nan := hall v (by simp)
  have e1 : ((v :: vs).map g).foldl fmin F32.inf = (vs.map g).foldl fmin (g v) := by
    simp [fmin_inf hv]
  have e2 : ((v :: vs).map g).foldl fmax F32.neginf = (vs.map g).foldl fmax (g v) := by
    simp [fmax_neginf hv]
  rw [e1, e2]
  refine (foldl_fmin_fmax (vs.map g) (g v) (g v) hv hv (fle_refl _ hv) ?_).2.2
  intro x hx
  obtain ⟨u, hu, rfl⟩ := List.mem_map.mp hx
  exact hall u (by simp [hu])

/-- C9 (counterexample): the bounding-box computation does not satisfy
the claim as stated.  On the single-vertex input `v inf 0 0` (Rust's
`f32` parser accepts `inf`) the x-axis range `max - min` is `∞ - ∞ =
NaN`, not zero; and on `v NaN 0 0` the folds leave `min_x = +∞` and
`max_x = -∞`, so `min_x ≤ max_x` fails on a non-empty vertex set. -/
theorem claim_C9_counterexample :
    ((bboxReport (processLines emptyMesh [w "v inf 0 0"]).vertices).map
        (fun b => fsub b.2.1 b.1)) = some F32.nan ∧
    F32.nan ≠ F32.finite 0 ∧
    (processLines emptyMesh [w "v NaN 0 0"]).vertices ≠ [] ∧
    ((bboxReport (processLines emptyMesh [w "v NaN 0 0"]).vertices).map
        (fun b => fle b.1 b.2.1)) = some false := by
  decide

/-- C9 (amended): when the vertex sequence is non-empty the bounding
box is computed as the componentwise `fmin`/`fmax` folds from positive
and negative infinity; `min ≤ max` holds on each axis provided no
coordinate is NaN; for a single-vertex input with finite coordinates
the range `max - min` on each axis is exactly zero; when the vertex
sequence is empty no bounding box is computed. -/
theorem claim_C9_amended :
    (∀ vs : List Vertex, vs ≠ [] →
        (∀ v ∈ vs, v.x ≠ F32.nan ∧ v.y ≠ F32.nan ∧ v.z ≠ F32.nan) →
        bboxReport vs = some (min_x vs, max_x vs, min_y vs, max_y vs, min_z vs, max_z vs) ∧
        fle (min_x vs) (max_x vs) = true ∧ fle (min_y vs) (max_y vs) = true ∧
        fle (min_z vs) (max_z vs) = true) ∧
    (∀ x y z : ℚ,
        fsub (max_x [{ x := F32.finite x, y := F32.finite y, z := F32.finite z }])
             (min_x [{ x := F32.finite x, y := F32.finite y, z := F32.finite z }]) =
          F32.finite 0 ∧
        fsub (max_y [{ x := F32.finite x, y := F32.finite y, z := F32.finite z }])
             (min_y [{ x := F32.finite x, y := F32.finite y, z := F32.finite z }]) =
          F32.finite 0 ∧
        fsub (max_z [{ x := F32.finite x, y := F32.finite y, z := F32.finite z }])
             (min_z [{ x := F32.finite x, y := F32.finite y, z := F32.finite z }]) =
          F32.finite 0) ∧
    bboxReport [] = none := by
  refine ⟨?_, ?_, ?_⟩
  · intro vs hne hcoords
    refine ⟨by rw [bboxReport, if_neg hne], ?_, ?_, ?_⟩
    · cases vs with
      | nil => exact absurd rfl hne
      | cons v rest =>
        exact minmax_axis (fun u => u.x) v rest (fun u hu => (hcoords u hu).1)
    · cases vs with
      | nil => exact absurd rfl hne
      | cons v rest =>
        exact minmax_axis (fun u => u.y) v rest (fun u hu => (hcoords u hu).2.1)
    · cases vs with
      | nil => exact absurd rfl hne
      | cons v rest =>
        exact minmax_axis (fun u => u.z) v rest (fun u hu => (hcoords u hu).2.2)
  · intro x y z
    have hfin : ∀ q : ℚ, F32.finite q ≠ F32.nan := fun q h => F32.noConfusion h
    refine ⟨?_, ?_, ?_⟩ <;>
      simp [min_x, max_x, min_y, max_y, min_z, max_z, fmin_inf (hfin _),
        fmax_neginf (hfin _), fsub]
  · rfl

/-- Witness for C9 (amended) at the single vertex `(0, 0, 0)`: the
bounding box exists, each axis satisfies `min ≤ max`, and each axis
range is exactly zero. -/
theorem claim_C9_amended_witness :
    (bboxReport [{ x := F32.finite 0, y := F32.finite 0, z := F32.finite 0 }] =
      some (min_x [{ x := F32.finite 0, y := F32.finite 0, z := F32.finite 0 }],
            max_x [{ x := F32.finite 0, y := F32.finite 0, z := F32.finite 0 }],
            min_y [{ x := F32.finite 0, y := F32.finite 0, z := F32.finite 0 }],
            max_y [{ x := F32.finite 0, y := F32.finite 0, z := F32.finite 0 }],
            min_z [{ x := F32.finite 0, y := F32.finite 0, z := F32.finite 0 }],
            max_z [{ x := F32.finite 0, y := F32.finite 0, z := F32.finite 0 }]) ∧
      fle (min_x [{ x := F32.finite 0, y := F32.finite 0, z := F32.finite 0 }])
          (max_x [{ x := F32.finite 0, y := F32.finite 0, z := F32.finite 0 }]) = true ∧
      fle (min_y [{ x := F32.finite 0, y := F32.finite 0, z := F32.finite 0 }])
          (max_y [{ x := F32.finite 0, y := F32.finite 0, z := F32.finite 0 }]) = true ∧
      fle (min_z [{ x := F32.finite 0, y := F32.finite 0, z := F32.finite 0 }])
          (max_z [{ x := F32.finite 0, y := F32.finite 0, z := F32.finite 0 }]) = true) ∧
    fsub (max_x [{ x := F32.finite 0, y := F32.finite 0, z := F32.finite 0 }])
         (min_x [{ x := F32.finite 0, y := F32.finite 0, z := F32.finite 0 }]) =
      F32.finite 0 :=
  ⟨claim_C9_amended.1 [{ x := F32.finite 0, y := F32.finite 0, z := F32.finite 0 }]
      (by decide) (by decide),
   (claim_C9_amended.2.1 0 0 0).1⟩

end ObjLoader
